import Mathlib

/-!
Shallow embedding of `mastery_tree.py` from the `tree_simulation` repository.

Modelling conventions:
* Python `int` is `Int`; list lengths and loop counters are `Nat`.
* The tier-keyed dictionary `{1: [...], ..., 5: [...]}` is modelled by five
  bucket fields together with a lookup `MasteryTree.points : Int → Option _`
  that returns `none` exactly on the keys absent from the dictionary
  (a Python `KeyError`).
* Fallible Python code (raising `ValueError`, `KeyError`, `IndexError`) is
  modelled in the `Except Err` monad.  Because the embedding is pure, a call
  that raises returns no tree at all, so the "tree left unchanged on error"
  behaviour of the mutating original holds by construction.
* `random.choice` and random name generation are modelled by explicit
  streams: a `Nat → Nat` stream of draw indices (reduced modulo the bucket
  length) and a `Nat → String` stream of name suffixes, threaded through a
  counter.  Point object identity is modelled by structural equality, which
  matches the Python program's use of identity because generated names are
  distinct random strings.
-/

/-- Python errors raised by the module: `ValueError msg`, `KeyError key`
(failed dictionary lookup) and `IndexError` (`random.choice` on an empty
list). -/
inductive Err : Type where
  | valueError : String → Err
  | keyError : Int → Err
  | indexError : Err
deriving DecidableEq, Repr

deriving instance DecidableEq for Except

/-- `MasteryPoint` from `mastery_tree.py`: a name, a tier, an optional
dependee and an optional list of dependers.  The dependency links are
recorded by point name: nothing in the repository ever constructs a point
with a dependee or dependers (`create_random_mp` always passes `None`,
`None`) and no algorithm reads them, so the reference-by-name encoding is
observationally equivalent and keeps equality of points decidable. -/
structure MasteryPoint : Type where
  name : String
  tier : Int
  dependee : Option String
  dependers : Option (List String)
deriving DecidableEq, Repr

/-- `MasteryPoint.is_standalone`. -/
def MasteryPoint.is_standalone (p : MasteryPoint) : Bool :=
  p.dependers.isNone && p.dependee.isNone

/-- `MasteryPoint.is_root`. -/
def MasteryPoint.is_root (p : MasteryPoint) : Bool :=
  p.dependee.isNone

/-- `MasteryTree`: species name, maximum tree value (Python default 47) and
the five tier buckets of the `points` dictionary `{1: t1, ..., 5: t5}`. -/
structure MasteryTree : Type where
  species : String
  maximum_tree_value : Int
  t1 : List MasteryPoint
  t2 : List MasteryPoint
  t3 : List MasteryPoint
  t4 : List MasteryPoint
  t5 : List MasteryPoint
deriving DecidableEq, Repr

/-- `MasteryTree(species)` with both optional arguments left at their
defaults: empty buckets and `maximum_tree_value = 47`. -/
def MasteryTree.mkDefault (species : String) : MasteryTree :=
  ⟨species, 47, [], [], [], [], []⟩

/-- `MasteryTree(species, maximum_tree_value = m)`: empty buckets, budget `m`. -/
def MasteryTree.mkEmpty (species : String) (m : Int) : MasteryTree :=
  ⟨species, m, [], [], [], [], []⟩

/-- The `points` dictionary: `some bucket` for keys 1-5, `none` otherwise. -/
def MasteryTree.points (mt : MasteryTree) (tier : Int) : Option (List MasteryPoint) :=
  if tier = 1 then some mt.t1
  else if tier = 2 then some mt.t2
  else if tier = 3 then some mt.t3
  else if tier = 4 then some mt.t4
  else if tier = 5 then some mt.t5
  else none

/-- `self.points[tier]`: dictionary subscript, raising `KeyError` on a
missing key. -/
def MasteryTree.dictGet (mt : MasteryTree) (tier : Int) : Except Err (List MasteryPoint) :=
  match mt.points tier with
  | some l => .ok l
  | none => .error (.keyError tier)

/-- `self.points[tier] = l` (used to model `.append` on the bucket). -/
def MasteryTree.setBucket (mt : MasteryTree) (tier : Int) (l : List MasteryPoint) : MasteryTree :=
  if tier = 1 then { mt with t1 := l }
  else if tier = 2 then { mt with t2 := l }
  else if tier = 3 then { mt with t3 := l }
  else if tier = 4 then { mt with t4 := l }
  else if tier = 5 then { mt with t5 := l }
  else mt

/-- `MasteryTree.get_tier_value`: `len(self.points[tier]) * tier`
(unchecked dictionary lookup). -/
def MasteryTree.get_tier_value (mt : MasteryTree) (tier : Int) : Except Err Int :=
  (mt.dictGet tier).map (fun l => (l.length : Int) * tier)

/-- `MasteryTree.get_cumulative_tier_value`: raises `ValueError` when the
tier is outside 1-5, otherwise sums `get_tier_value k` for `k` in
`range(1, tier + 1)`. -/
def MasteryTree.get_cumulative_tier_value (mt : MasteryTree) (tier : Int) : Except Err Int :=
  if tier < 1 ∨ tier > 5 then
    .error (.valueError ("Value " ++ toString tier ++ " is not a tier."))
  else
    (List.range' 1 tier.toNat).foldlM
      (fun val k => (mt.get_tier_value (k : Int)).map (fun x => val + x)) 0

/-- `MasteryTree.is_viable`: the four cumulative unlock gates, combined with
Python's eager `&` on booleans. -/
def MasteryTree.is_viable (mt : MasteryTree) : Except Err Bool := do
  let v1 ← mt.get_cumulative_tier_value 1
  let v2 ← mt.get_cumulative_tier_value 2
  let v3 ← mt.get_cumulative_tier_value 3
  let v4 ← mt.get_cumulative_tier_value 4
  pure (decide (1 ≤ v1) && decide (3 ≤ v2) && decide (6 ≤ v3) && decide (10 ≤ v4))

/-- `MasteryTree.get_current_value`: `get_cumulative_tier_value(5)`. -/
def MasteryTree.get_current_value (mt : MasteryTree) : Except Err Int :=
  mt.get_cumulative_tier_value 5

/-- `MasteryTree.get_available_space`: `maximum_tree_value - get_current_value()`. -/
def MasteryTree.get_available_space (mt : MasteryTree) : Except Err Int :=
  (mt.get_current_value).map (fun v => mt.maximum_tree_value - v)

/-- `MasteryTree.is_complete`: `get_current_value() == maximum_tree_value`. -/
def MasteryTree.is_complete (mt : MasteryTree) : Except Err Bool :=
  (mt.get_current_value).map (fun v => decide (v = mt.maximum_tree_value))

/-- `MasteryTree.is_finished`: `is_viable() & is_complete()`. -/
def MasteryTree.is_finished (mt : MasteryTree) : Except Err Bool := do
  let a ← mt.is_viable
  let b ← mt.is_complete
  pure (a && b)

/-- `MasteryTree.add_point`: budget check first (`ValueError` when the new
point would overflow the budget), then append to the bucket keyed by the
point's tier. -/
def MasteryTree.add_point (mt : MasteryTree) (p : MasteryPoint) : Except Err MasteryTree := do
  let cur ← mt.get_current_value
  if cur + p.tier ≤ mt.maximum_tree_value then
    match mt.points p.tier with
    | some l => pure (mt.setBucket p.tier (l ++ [p]))
    | none => .error (.keyError p.tier)
  else
    .error (.valueError ("Unable to add point of value " ++ toString p.tier
      ++ " : current capacity is at " ++ toString cur))

/-- `MasteryTree.get_number_of_points_by_tier`: `len(self.points[tier])`
(unchecked dictionary lookup). -/
def MasteryTree.get_number_of_points_by_tier (mt : MasteryTree) (tier : Int) : Except Err Nat :=
  (mt.dictGet tier).map List.length

/-- `MasteryTree.get_total_number_of_points`: sum of the bucket lengths over
the dictionary values. -/
def MasteryTree.get_total_number_of_points (mt : MasteryTree) : Nat :=
  mt.t1.length + mt.t2.length + mt.t3.length + mt.t4.length + mt.t5.length

/-- `MasteryTree.fuse`: requires equal budgets (`ValueError` otherwise) and
returns a brand-new tree whose buckets are the concatenations
`self.points[k] + other.points[k]`. -/
def MasteryTree.fuse (mt other : MasteryTree) : Except Err MasteryTree :=
  if mt.maximum_tree_value = other.maximum_tree_value then
    .ok ⟨"fuse " ++ mt.species ++ " & " ++ other.species, mt.maximum_tree_value,
      mt.t1 ++ other.t1, mt.t2 ++ other.t2, mt.t3 ++ other.t3,
      mt.t4 ++ other.t4, mt.t5 ++ other.t5⟩
  else
    .error (.valueError ("Trees " ++ mt.species ++ " and " ++ other.species
      ++ " have different maximum tree values !"))

/-- `MasteryTree.contains`: membership of the point in the bucket keyed by
the point's own tier (unchecked dictionary lookup). -/
def MasteryTree.contains (mt : MasteryTree) (p : MasteryPoint) : Except Err Bool :=
  (mt.dictGet p.tier).map (fun l => decide (p ∈ l))

/-- `MasteryTree.get_random_by_tier`: `random.choice(self.points[tier])`,
modelled with an explicit draw index `r`; an empty bucket raises
`IndexError`. -/
def MasteryTree.get_random_by_tier (mt : MasteryTree) (tier : Int) (r : Nat) :
    Except Err MasteryPoint := do
  let l ← mt.dictGet tier
  match h : l.length with
  | 0 => .error .indexError
  | Nat.succ _ => .ok (l.get ⟨r % l.length, Nat.mod_lt r (by omega)⟩)

/-! ### Closed forms for the always-successful accessors -/

/-- Closed form of `get_cumulative_tier_value` for valid tiers. -/
def cumulativeValue (mt : MasteryTree) (tier : Int) : Int :=
  (if 1 ≤ tier then (mt.t1.length : Int) * 1 else 0) +
  (if 2 ≤ tier then (mt.t2.length : Int) * 2 else 0) +
  (if 3 ≤ tier then (mt.t3.length : Int) * 3 else 0) +
  (if 4 ≤ tier then (mt.t4.length : Int) * 4 else 0) +
  (if 5 ≤ tier then (mt.t5.length : Int) * 5 else 0)

/-- Closed form of `get_current_value`. -/
def currentValue (mt : MasteryTree) : Int := cumulativeValue mt 5

/-- Closed form of `is_viable`. -/
def viableB (mt : MasteryTree) : Bool :=
  decide (1 ≤ cumulativeValue mt 1) && decide (3 ≤ cumulativeValue mt 2)
    && decide (6 ≤ cumulativeValue mt 3) && decide (10 ≤ cumulativeValue mt 4)

/-- Closed form of `is_complete`. -/
def completeB (mt : MasteryTree) : Bool := decide (currentValue mt = mt.maximum_tree_value)

theorem currentValue_eq (mt : MasteryTree) :
    currentValue mt = (mt.t1.length : Int) * 1 + (mt.t2.length : Int) * 2
      + (mt.t3.length : Int) * 3 + (mt.t4.length : Int) * 4 + (mt.t5.length : Int) * 5 := by
  simp [currentValue, cumulativeValue]

@[simp] theorem okBind {α β : Type} (a : α) (f : α → Except Err β) :
    (Except.ok a >>= f) = f a := rfl

@[simp] theorem errBind {α β : Type} (e : Err) (f : α → Except Err β) :
    ((Except.error e : Except Err α) >>= f) = Except.error e := rfl

@[simp] theorem okMap {α β : Type} (f : α → β) (a : α) :
    Except.map f (Except.ok a : Except Err α) = .ok (f a) := rfl

@[simp] theorem errMap {α β : Type} (f : α → β) (e : Err) :
    Except.map f (Except.error e : Except Err α) = .error e := rfl

@[simp] theorem pureOk {α : Type} (a : α) : (pure a : Except Err α) = .ok a := rfl

@[simp] theorem points_one (mt : MasteryTree) : mt.points 1 = some mt.t1 := rfl
@[simp] theorem points_two (mt : MasteryTree) : mt.points 2 = some mt.t2 := rfl
@[simp] theorem points_three (mt : MasteryTree) : mt.points 3 = some mt.t3 := rfl
@[simp] theorem points_four (mt : MasteryTree) : mt.points 4 = some mt.t4 := rfl
@[simp] theorem points_five (mt : MasteryTree) : mt.points 5 = some mt.t5 := rfl

theorem points_eq_some_iff (mt : MasteryTree) (t : Int) (l : List MasteryPoint) :
    mt.points t = some l ↔
      (t = 1 ∧ l = mt.t1) ∨ (t = 2 ∧ l = mt.t2) ∨ (t = 3 ∧ l = mt.t3)
        ∨ (t = 4 ∧ l = mt.t4) ∨ (t = 5 ∧ l = mt.t5) := by
  unfold MasteryTree.points
  split_ifs with h1 h2 h3 h4 h5 <;> simp_all <;> tauto

theorem points_eq_none_of_invalid (mt : MasteryTree) (t : Int) (h : t < 1 ∨ 5 < t) :
    mt.points t = none := by
  unfold MasteryTree.points
  split_ifs <;> first | rfl | omega

theorem cum_ok_one (mt : MasteryTree) :
    mt.get_cumulative_tier_value 1 = .ok (cumulativeValue mt 1) := by
  have h : mt.get_cumulative_tier_value 1 = .ok (0 + (mt.t1.length : Int) * 1) := rfl
  rw [h]
  congr 1
  simp [cumulativeValue]

theorem cum_ok_two (mt : MasteryTree) :
    mt.get_cumulative_tier_value 2 = .ok (cumulativeValue mt 2) := by
  have h : mt.get_cumulative_tier_value 2
      = .ok (0 + (mt.t1.length : Int) * 1 + (mt.t2.length : Int) * 2) := rfl
  rw [h]
  congr 1
  simp [cumulativeValue]

theorem cum_ok_three (mt : MasteryTree) :
    mt.get_cumulative_tier_value 3 = .ok (cumulativeValue mt 3) := by
  have h : mt.get_cumulative_tier_value 3
      = .ok (0 + (mt.t1.length : Int) * 1 + (mt.t2.length : Int) * 2
          + (mt.t3.length : Int) * 3) := rfl
  rw [h]
  congr 1
  simp [cumulativeValue]

theorem cum_ok_four (mt : MasteryTree) :
    mt.get_cumulative_tier_value 4 = .ok (cumulativeValue mt 4) := by
  have h : mt.get_cumulative_tier_value 4
      = .ok (0 + (mt.t1.length : Int) * 1 + (mt.t2.length : Int) * 2
          + (mt.t3.length : Int) * 3 + (mt.t4.length : Int) * 4) := rfl
  rw [h]
  congr 1
  simp [cumulativeValue]

theorem cum_ok_five (mt : MasteryTree) :
    mt.get_cumulative_tier_value 5 = .ok (cumulativeValue mt 5) := by
  have h : mt.get_cumulative_tier_value 5
      = .ok (0 + (mt.t1.length : Int) * 1 + (mt.t2.length : Int) * 2
          + (mt.t3.length : Int) * 3 + (mt.t4.length : Int) * 4
          + (mt.t5.length : Int) * 5) := rfl
  rw [h]
  congr 1
  simp [cumulativeValue]

@[simp] theorem get_current_ok (mt : MasteryTree) :
    mt.get_current_value = .ok (currentValue mt) := cum_ok_five mt

@[simp] theorem is_viable_ok (mt : MasteryTree) : mt.is_viable = .ok (viableB mt) := by
  unfold MasteryTree.is_viable viableB
  rw [cum_ok_one, cum_ok_two, cum_ok_three, cum_ok_four]
  simp

@[simp] theorem is_complete_ok (mt : MasteryTree) : mt.is_complete = .ok (completeB mt) := by
  unfold MasteryTree.is_complete completeB
  rw [get_current_ok]
  simp

@[simp] theorem available_ok (mt : MasteryTree) :
    mt.get_available_space = .ok (mt.maximum_tree_value - currentValue mt) := by
  unfold MasteryTree.get_available_space
  rw [get_current_ok]
  simp

@[simp] theorem is_finished_ok (mt : MasteryTree) :
    mt.is_finished = .ok (viableB mt && completeB mt) := by
  unfold MasteryTree.is_finished
  rw [is_viable_ok, is_complete_ok]
  simp

/-! ### Anatomy of `setBucket` and `add_point` -/

theorem setBucket_species (mt : MasteryTree) (t : Int) (l : List MasteryPoint) :
    (mt.setBucket t l).species = mt.species := by
  unfold MasteryTree.setBucket
  split_ifs <;> rfl

theorem setBucket_max (mt : MasteryTree) (t : Int) (l : List MasteryPoint) :
    (mt.setBucket t l).maximum_tree_value = mt.maximum_tree_value := by
  unfold MasteryTree.setBucket
  split_ifs <;> rfl

theorem setBucket_one (mt : MasteryTree) (l : List MasteryPoint) :
    mt.setBucket 1 l = { mt with t1 := l } := rfl

theorem setBucket_two (mt : MasteryTree) (l : List MasteryPoint) :
    mt.setBucket 2 l = { mt with t2 := l } := rfl

theorem setBucket_three (mt : MasteryTree) (l : List MasteryPoint) :
    mt.setBucket 3 l = { mt with t3 := l } := rfl

theorem setBucket_four (mt : MasteryTree) (l : List MasteryPoint) :
    mt.setBucket 4 l = { mt with t4 := l } := rfl

theorem setBucket_five (mt : MasteryTree) (l : List MasteryPoint) :
    mt.setBucket 5 l = { mt with t5 := l } := rfl

theorem upd_points_t1 (mt : MasteryTree) (l : List MasteryPoint) (u : Int) :
    ({ mt with t1 := l } : MasteryTree).points u = if u = 1 then some l else mt.points u := by
  unfold MasteryTree.points
  split_ifs <;> simp_all

theorem upd_points_t2 (mt : MasteryTree) (l : List MasteryPoint) (u : Int) :
    ({ mt with t2 := l } : MasteryTree).points u = if u = 2 then some l else mt.points u := by
  unfold MasteryTree.points
  split_ifs <;> simp_all

theorem upd_points_t3 (mt : MasteryTree) (l : List MasteryPoint) (u : Int) :
    ({ mt with t3 := l } : MasteryTree).points u = if u = 3 then some l else mt.points u := by
  unfold MasteryTree.points
  split_ifs <;> simp_all

theorem upd_points_t4 (mt : MasteryTree) (l : List MasteryPoint) (u : Int) :
    ({ mt with t4 := l } : MasteryTree).points u = if u = 4 then some l else mt.points u := by
  unfold MasteryTree.points
  split_ifs <;> simp_all

theorem upd_points_t5 (mt : MasteryTree) (l : List MasteryPoint) (u : Int) :
    ({ mt with t5 := l } : MasteryTree).points u = if u = 5 then some l else mt.points u := by
  unfold MasteryTree.points
  split_ifs <;> simp_all

theorem setBucket_points (mt : MasteryTree) (t : Int) (l0 l : List MasteryPoint)
    (ht : mt.points t = some l0) (u : Int) :
    (mt.setBucket t l).points u = if u = t then some l else mt.points u := by
  rcases (points_eq_some_iff mt t l0).mp ht with ⟨h, _⟩ | ⟨h, _⟩ | ⟨h, _⟩ | ⟨h, _⟩ | ⟨h, _⟩ <;>
    subst h
  · rw [setBucket_one]
    exact upd_points_t1 mt l u
  · rw [setBucket_two]
    exact upd_points_t2 mt l u
  · rw [setBucket_three]
    exact upd_points_t3 mt l u
  · rw [setBucket_four]
    exact upd_points_t4 mt l u
  · rw [setBucket_five]
    exact upd_points_t5 mt l u

theorem add_point_ok_iff (mt : MasteryTree) (p : MasteryPoint) (mt' : MasteryTree) :
    mt.add_point p = .ok mt' ↔
      currentValue mt + p.tier ≤ mt.maximum_tree_value ∧
      ∃ l, mt.points p.tier = some l ∧ mt' = mt.setBucket p.tier (l ++ [p]) := by
  unfold MasteryTree.add_point
  rw [get_current_ok]
  simp only [okBind]
  by_cases hb : currentValue mt + p.tier ≤ mt.maximum_tree_value
  · rw [if_pos hb]
    cases hp : mt.points p.tier with
    | some l => simp [hb, Except.ok.injEq, eq_comm]
    | none => simp [hb]
  · rw [if_neg hb]
    simp [hb]

theorem add_point_error_of_over (mt : MasteryTree) (p : MasteryPoint)
    (hb : ¬ currentValue mt + p.tier ≤ mt.maximum_tree_value) :
    mt.add_point p = .error (.valueError ("Unable to add point of value "
      ++ toString p.tier ++ " : current capacity is at " ++ toString (currentValue mt))) := by
  unfold MasteryTree.add_point
  rw [get_current_ok]
  simp only [okBind]
  rw [if_neg hb]

theorem add_point_ok_of (mt : MasteryTree) (p : MasteryPoint) (l : List MasteryPoint)
    (hb : currentValue mt + p.tier ≤ mt.maximum_tree_value)
    (hp : mt.points p.tier = some l) :
    mt.add_point p = .ok (mt.setBucket p.tier (l ++ [p])) :=
  (add_point_ok_iff mt p _).mpr ⟨hb, l, hp, rfl⟩

theorem add_point_ok_spec (mt : MasteryTree) (p : MasteryPoint) (mt' : MasteryTree)
    (h : mt.add_point p = .ok mt') :
    mt'.maximum_tree_value = mt.maximum_tree_value ∧ mt'.species = mt.species ∧
    currentValue mt' = currentValue mt + p.tier ∧
    currentValue mt + p.tier ≤ mt.maximum_tree_value ∧
    (∀ u, u ≠ p.tier → mt'.points u = mt.points u) ∧
    (∃ l, mt.points p.tier = some l ∧ mt'.points p.tier = some (l ++ [p])) := by
  obtain ⟨hb, l, hp, rfl⟩ := (add_point_ok_iff mt p mt').mp h
  refine ⟨setBucket_max mt _ _, setBucket_species mt _ _, ?_, hb, ?_, l, hp, ?_⟩
  · rcases (points_eq_some_iff mt p.tier l).mp hp with ⟨h1, h2⟩ | ⟨h1, h2⟩ | ⟨h1, h2⟩
      | ⟨h1, h2⟩ | ⟨h1, h2⟩ <;>
      rw [h1] <;> subst h2 <;>
      simp [MasteryTree.setBucket, currentValue, cumulativeValue] <;> ring
  · intro u hu
    rw [setBucket_points mt p.tier l _ hp u, if_neg hu]
  · rw [setBucket_points mt p.tier l _ hp p.tier, if_pos rfl]

/-! ### The hybridization engine -/

/-- `get_smallest_free_tier`: the lowest tier 1-5 where the set of pool
points is not a subset of the result tree's points, else `None`. -/
def get_smallest_free_tier (tree pool : MasteryTree) : Option Int :=
  [1, 2, 3, 4, 5].find? (fun t =>
    !(((pool.points t).getD []).all (fun p => decide (p ∈ (tree.points t).getD []))))

/-- One pass of the `for tier in range(1, 6)` loop inside
`create_hybrid_tree`: when the pool has points at that tier and the tier
still fits the remaining space, draw a random pool point of that tier and
insert it unless the result tree already contains that exact point.
`stream` supplies the random draw indices, `ctr` counts the draws made so
far. -/
def hybridPass (pool : MasteryTree) (stream : Nat → Nat) :
    List Int → MasteryTree → Nat → Except Err (MasteryTree × Nat)
  | [], nt, ctr => .ok (nt, ctr)
  | tier :: rest, nt, ctr => do
    let cnt ← pool.get_number_of_points_by_tier tier
    let avail ← nt.get_available_space
    if 0 < cnt ∧ tier ≤ avail then do
      let point ← pool.get_random_by_tier tier (stream ctr)
      let c ← nt.contains point
      if c then
        hybridPass pool stream rest nt (ctr + 1)
      else do
        let nt' ← nt.add_point point
        hybridPass pool stream rest nt' (ctr + 1)
    else
      hybridPass pool stream rest nt ctr

/-- The `while not nt.is_finished()` loop of `create_hybrid_tree`, with an
explicit fuel parameter: `.ok none` means the fuel ran out with the loop
still running (used to exhibit divergence), `.ok (some nt)` means the
Python loop returned `nt`. -/
def hybridLoop (pool : MasteryTree) (stream : Nat → Nat) :
    Nat → MasteryTree → Nat → Except Err (Option MasteryTree)
  | 0, _, _ => .ok none
  | fuel + 1, nt, ctr => do
    let fin ← nt.is_finished
    if fin then
      .ok (some nt)
    else
      match get_smallest_free_tier nt pool with
      | none => .ok (some nt)
      | some s => do
        let cur ← nt.get_current_value
        if nt.maximum_tree_value - cur < s then
          .ok (some nt)
        else do
          let st ← hybridPass pool stream [1, 2, 3, 4, 5] nt ctr
          hybridLoop pool stream fuel st.1 st.2

/-- `create_hybrid_tree`: fuse the two source trees into a pool, then run
the drawing loop on a fresh default tree (note: the Python code constructs
`nt` with `MasteryTree(name)` only, so `nt` gets the DEFAULT budget 47, not
the pool's). -/
def create_hybrid_tree (first_tree second_tree : MasteryTree) (stream : Nat → Nat)
    (fuel : Nat) : Except Err (Option MasteryTree) := do
  let pool ← first_tree.fuse second_tree
  hybridLoop pool stream fuel
    (MasteryTree.mkDefault (first_tree.species ++ " & " ++ second_tree.species ++ " hybrid")) 0

/-! ### Random point creation and the tree generators

Random 6-letter name suffixes are modelled by an explicit stream
`names : Nat → String` consumed at an incrementing counter `ctr`. -/

/-- `create_random_mp`: a fresh standalone point of the given tier whose
name is the prefix followed by the random suffix. -/
def create_random_mp (tier : Int) (pre : String) (rnd : String) : MasteryPoint :=
  ⟨pre ++ rnd, tier, none, none⟩

/-- `create_list_of_random_mp`: `n` fresh points of the given tier, with
the per-point name prefix `f"{pre}_t{tier}_{nb}_"`; returns the advanced
name-stream counter as well. -/
def create_list_of_random_mp (names : Nat → String) (ctr : Nat) (tier : Int) (n : Nat)
    (pre : String) : List MasteryPoint × Nat :=
  ((List.range n).map (fun nb =>
    create_random_mp tier (pre ++ "_t" ++ toString tier ++ "_" ++ toString nb ++ "_")
      (names (ctr + nb))), ctr + n)

/-- The inner `while mt.maximum_tree_value - mt.get_current_value() > tier`
loop of `heavy_fill_tree` for one tier.  Note the strict `>`:
the loop stops as soon as the remaining gap is `≤ tier`. -/
def heavyFillTier (names : Nat → String) (tier : Int) (htier : 1 ≤ tier)
    (mt : MasteryTree) (ctr : Nat) : Except Err (MasteryTree × Nat) :=
  if hgt : tier < mt.maximum_tree_value - currentValue mt then
    match hadd : mt.add_point (create_random_mp tier ("t" ++ toString tier) (names ctr)) with
    | .ok mt2 => heavyFillTier names tier htier mt2 (ctr + 1)
    | .error e => .error e
  else
    .ok (mt, ctr)
termination_by (mt.maximum_tree_value - currentValue mt).toNat
decreasing_by
  obtain ⟨hmax, _, hcur, _, _, _⟩ := add_point_ok_spec _ _ _ hadd
  have htp : (create_random_mp tier ("t" ++ toString tier) (names ctr)).tier = tier := rfl
  rw [htp] at hcur
  omega

theorem int_one_le_one : (1 : Int) ≤ 1 := le_refl 1
theorem int_one_le_two : (1 : Int) ≤ 2 := by decide
theorem int_one_le_three : (1 : Int) ≤ 3 := by decide
theorem int_one_le_four : (1 : Int) ≤ 4 := by decide
theorem int_one_le_five : (1 : Int) ≤ 5 := by decide

/-- `heavy_fill_tree`: the `for tier in range(5, 0, -1)` loop, unrolled. -/
def heavy_fill_tree (names : Nat → String) (st : MasteryTree × Nat) :
    Except Err (MasteryTree × Nat) := do
  let s5 ← heavyFillTier names 5 int_one_le_five st.1 st.2
  let s4 ← heavyFillTier names 4 int_one_le_four s5.1 s5.2
  let s3 ← heavyFillTier names 3 int_one_le_three s4.1 s4.2
  let s2 ← heavyFillTier names 2 int_one_le_two s3.1 s3.2
  let s1 ← heavyFillTier names 1 int_one_le_one s2.1 s2.2
  pure s1

/-- `light_fill_tree`: `while get_current_value() < maximum_tree_value`,
adding tier-1 points. -/
def light_fill_tree (names : Nat → String) (st : MasteryTree × Nat) :
    Except Err (MasteryTree × Nat) :=
  if h : currentValue st.1 < st.1.maximum_tree_value then
    match hadd : st.1.add_point (create_random_mp 1 "t1" (names st.2)) with
    | .ok mt2 => light_fill_tree names (mt2, st.2 + 1)
    | .error e => .error e
  else
    .ok st
termination_by (st.1.maximum_tree_value - currentValue st.1).toNat
decreasing_by
  obtain ⟨hmax, _, hcur, _, _, _⟩ := add_point_ok_spec _ _ _ hadd
  have htp : (create_random_mp 1 "t1" (names st.2)).tier = 1 := rfl
  rw [htp] at hcur
  omega

/-- The inner `for tier in range(5, 0, -1)` pass of `evenly_fill_tree`:
one point per tier whenever the available space accommodates the tier. -/
def evenFillPass (names : Nat → String) :
    List Int → MasteryTree → Nat → Except Err (MasteryTree × Nat)
  | [], mt, ctr => .ok (mt, ctr)
  | tier :: rest, mt, ctr =>
    if tier ≤ mt.maximum_tree_value - currentValue mt then
      match mt.add_point (create_random_mp tier ("t" ++ toString tier) (names ctr)) with
      | .ok mt2 => evenFillPass names rest mt2 (ctr + 1)
      | .error e => .error e
    else
      evenFillPass names rest mt ctr

theorem evenFillPass_mono (names : Nat → String) :
    ∀ (l : List Int) (mt : MasteryTree) (ctr : Nat) (st' : MasteryTree × Nat),
      (∀ t ∈ l, 1 ≤ t) → evenFillPass names l mt ctr = .ok st' →
      st'.1.maximum_tree_value = mt.maximum_tree_value
        ∧ currentValue mt ≤ currentValue st'.1 := by
  intro l
  induction l with
  | nil =>
    intro mt ctr st' _ h
    cases h
    exact ⟨rfl, le_refl _⟩
  | cons t rest ih =>
    intro mt ctr st' hpos h
    unfold evenFillPass at h
    split_ifs at h with hc
    · cases hadd : mt.add_point (create_random_mp t ("t" ++ toString t) (names ctr)) with
      | ok mt2 =>
        rw [hadd] at h
        obtain ⟨hmax, _, hcur, _, _, _⟩ := add_point_ok_spec _ _ _ hadd
        have htp : (create_random_mp t ("t" ++ toString t) (names ctr)).tier = t := rfl
        rw [htp] at hcur
        obtain ⟨h1, h2⟩ := ih mt2 (ctr + 1) st' (fun u hu => hpos u (List.mem_cons_of_mem _ hu)) h
        have ht1 : (1 : Int) ≤ t := hpos t (List.mem_cons_self t rest)
        constructor
        · rw [h1, hmax]
        · omega
      | error e =>
        rw [hadd] at h
        cases h
    · exact ih mt ctr st' (fun u hu => hpos u (List.mem_cons_of_mem _ hu)) h

theorem evenFillPass_progress (names : Nat → String) :
    ∀ (l : List Int) (mt : MasteryTree) (ctr : Nat) (st' : MasteryTree × Nat),
      (∀ t ∈ l, 1 ≤ t) → (1 : Int) ∈ l → currentValue mt < mt.maximum_tree_value →
      evenFillPass names l mt ctr = .ok st' →
      currentValue mt < currentValue st'.1 := by
  intro l
  induction l with
  | nil =>
    intro mt ctr st' _ hmem
    cases hmem
  | cons t rest ih =>
    intro mt ctr st' hpos hmem hlt h
    unfold evenFillPass at h
    split_ifs at h with hc
    · cases hadd : mt.add_point (create_random_mp t ("t" ++ toString t) (names ctr)) with
      | ok mt2 =>
        rw [hadd] at h
        obtain ⟨hmax, _, hcur, _, _, _⟩ := add_point_ok_spec _ _ _ hadd
        have htp : (create_random_mp t ("t" ++ toString t) (names ctr)).tier = t := rfl
        rw [htp] at hcur
        obtain ⟨_, h2⟩ := evenFillPass_mono names rest mt2 (ctr + 1) st'
          (fun u hu => hpos u (List.mem_cons_of_mem _ hu)) h
        have ht1 : (1 : Int) ≤ t := hpos t (List.mem_cons_self t rest)
        omega
      | error e =>
        rw [hadd] at h
        cases h
    · rcases List.mem_cons.mp hmem with h1 | h1
      · exfalso
        omega
      · exact ih mt ctr st' (fun u hu => hpos u (List.mem_cons_of_mem _ hu)) h1 hlt h

/-- `evenly_fill_tree`: `while get_current_value() < maximum_tree_value`,
running one round-robin pass (tiers 5 down to 1) per iteration. -/
def evenly_fill_tree (names : Nat → String) (st : MasteryTree × Nat) :
    Except Err (MasteryTree × Nat) :=
  if h : currentValue st.1 < st.1.maximum_tree_value then
    match hp : evenFillPass names [5, 4, 3, 2, 1] st.1 st.2 with
    | .ok st2 => evenly_fill_tree names st2
    | .error e => .error e
  else
    .ok st
termination_by (st.1.maximum_tree_value - currentValue st.1).toNat
decreasing_by
  obtain ⟨hmax, _⟩ := evenFillPass_mono names [5, 4, 3, 2, 1] st.1 st.2 st2
    (by intro t ht; fin_cases ht <;> decide) hp
  have hprog := evenFillPass_progress names [5, 4, 3, 2, 1] st.1 st.2 st2
    (by intro t ht; fin_cases ht <;> decide) (by decide) h hp
  omega

/-- `generate_heavy_viable`: the 1/2/3/4/1 skeleton.  The `tree_value`
parameter is accepted but never used: the tree is built with the
constructor's default `maximum_tree_value = 47`. -/
def generate_heavy_viable (name : String) (tree_value : Int) (names : Nat → String)
    (ctr : Nat) : MasteryTree × Nat :=
  let r1 := create_list_of_random_mp names ctr 1 1 name
  let r2 := create_list_of_random_mp names r1.2 2 2 name
  let r3 := create_list_of_random_mp names r2.2 3 3 name
  let r4 := create_list_of_random_mp names r3.2 4 4 name
  let r5 := create_list_of_random_mp names r4.2 5 1 name
  (⟨name, 47, r1.1, r2.1, r3.1, r4.1, r5.1⟩, r5.2)

/-- `generate_light_viable`: the 4/3/2/1/1 skeleton.  The `tree_value`
parameter is accepted but never used. -/
def generate_light_viable (name : String) (tree_value : Int) (names : Nat → String)
    (ctr : Nat) : MasteryTree × Nat :=
  let r1 := create_list_of_random_mp names ctr 1 4 name
  let r2 := create_list_of_random_mp names r1.2 2 3 name
  let r3 := create_list_of_random_mp names r2.2 3 2 name
  let r4 := create_list_of_random_mp names r3.2 4 1 name
  let r5 := create_list_of_random_mp names r4.2 5 1 name
  (⟨name, 47, r1.1, r2.1, r3.1, r4.1, r5.1⟩, r5.2)

/-- `generate_min_low_tiers(tree_value)()`: heavy fill of the heavy-viable
`"MINLT"` skeleton. -/
def generate_min_low_tiers (tree_value : Int) (names : Nat → String) (ctr : Nat) :
    Except Err (MasteryTree × Nat) :=
  heavy_fill_tree names (generate_heavy_viable "MINLT" tree_value names ctr)

/-- `generate_max_low_tiers(tree_value)()`: light fill of the light-viable
`"MAXLT"` skeleton. -/
def generate_max_low_tiers (tree_value : Int) (names : Nat → String) (ctr : Nat) :
    Except Err (MasteryTree × Nat) :=
  light_fill_tree names (generate_light_viable "MAXLT" tree_value names ctr)

/-- `generate_avg(tree_value)()`: even fill of the light-viable `"AVG"`
skeleton. -/
def generate_avg (tree_value : Int) (names : Nat → String) (ctr : Nat) :
    Except Err (MasteryTree × Nat) :=
  evenly_fill_tree names (generate_light_viable "AVG" tree_value names ctr)

/-! ### Anatomy of `fuse` and the per-tier accessors -/

theorem fuse_ok_of_eq (A B : MasteryTree) (h : A.maximum_tree_value = B.maximum_tree_value) :
    A.fuse B = .ok ⟨"fuse " ++ A.species ++ " & " ++ B.species, A.maximum_tree_value,
      A.t1 ++ B.t1, A.t2 ++ B.t2, A.t3 ++ B.t3, A.t4 ++ B.t4, A.t5 ++ B.t5⟩ := by
  unfold MasteryTree.fuse
  rw [if_pos h]

theorem fuse_error_of_ne (A B : MasteryTree) (h : ¬ A.maximum_tree_value = B.maximum_tree_value) :
    A.fuse B = .error (.valueError ("Trees " ++ A.species ++ " and " ++ B.species
      ++ " have different maximum tree values !")) := by
  unfold MasteryTree.fuse
  rw [if_neg h]

theorem fuse_ok_spec (A B C : MasteryTree) (h : A.fuse B = .ok C) :
    A.maximum_tree_value = B.maximum_tree_value ∧
    C = ⟨"fuse " ++ A.species ++ " & " ++ B.species, A.maximum_tree_value,
      A.t1 ++ B.t1, A.t2 ++ B.t2, A.t3 ++ B.t3, A.t4 ++ B.t4, A.t5 ++ B.t5⟩ := by
  unfold MasteryTree.fuse at h
  split_ifs at h with hb
  · cases h
    exact ⟨hb, rfl⟩

theorem num_ok (mt : MasteryTree) (tier : Int) (lp : List MasteryPoint)
    (hp : mt.points tier = some lp) :
    mt.get_number_of_points_by_tier tier = .ok lp.length := by
  unfold MasteryTree.get_number_of_points_by_tier MasteryTree.dictGet
  rw [hp]
  rfl

theorem num_err (mt : MasteryTree) (tier : Int) (hp : mt.points tier = none) :
    mt.get_number_of_points_by_tier tier = .error (.keyError tier) := by
  unfold MasteryTree.get_number_of_points_by_tier MasteryTree.dictGet
  rw [hp]
  rfl

theorem contains_ok (mt : MasteryTree) (p : MasteryPoint) (lc : List MasteryPoint)
    (hp : mt.points p.tier = some lc) :
    mt.contains p = .ok (decide (p ∈ lc)) := by
  unfold MasteryTree.contains MasteryTree.dictGet
  rw [hp]
  rfl

theorem contains_err (mt : MasteryTree) (p : MasteryPoint) (hp : mt.points p.tier = none) :
    mt.contains p = .error (.keyError p.tier) := by
  unfold MasteryTree.contains MasteryTree.dictGet
  rw [hp]
  rfl

theorem random_err_key (mt : MasteryTree) (tier : Int) (r : Nat)
    (hp : mt.points tier = none) :
    mt.get_random_by_tier tier r = .error (.keyError tier) := by
  unfold MasteryTree.get_random_by_tier MasteryTree.dictGet
  rw [hp]
  rfl

theorem random_ok_mem (mt : MasteryTree) (tier : Int) (r : Nat) (p : MasteryPoint)
    (h : mt.get_random_by_tier tier r = .ok p) :
    ∃ lp, mt.points tier = some lp ∧ p ∈ lp := by
  unfold MasteryTree.get_random_by_tier MasteryTree.dictGet at h
  cases hp : mt.points tier with
  | none =>
    rw [hp] at h
    cases h
  | some lp =>
    rw [hp] at h
    simp only [okBind] at h
    refine ⟨lp, rfl, ?_⟩
    split at h
    · cases h
    · cases h
      exact List.get_mem _ _ _

theorem random_ok_or_idx (mt : MasteryTree) (tier : Int) (r : Nat)
    (lp : List MasteryPoint) (hp : mt.points tier = some lp) :
    (∃ p, mt.get_random_by_tier tier r = .ok p)
      ∨ mt.get_random_by_tier tier r = .error .indexError := by
  unfold MasteryTree.get_random_by_tier MasteryTree.dictGet
  rw [hp]
  simp only [okBind]
  cases lp with
  | nil => exact Or.inr rfl
  | cons a l2 => exact Or.inl ⟨_, rfl⟩

/-! ### Invariants of the hybridization loop -/

theorem hybridPass_budget (pool : MasteryTree) (stream : Nat → Nat) :
    ∀ (l : List Int) (nt : MasteryTree) (ctr : Nat) (st' : MasteryTree × Nat),
      hybridPass pool stream l nt ctr = .ok st' →
      st'.1.maximum_tree_value = nt.maximum_tree_value
        ∧ (currentValue nt ≤ nt.maximum_tree_value →
            currentValue st'.1 ≤ nt.maximum_tree_value) := by
  intro l
  induction l with
  | nil =>
    intro nt ctr st' h
    cases h
    exact ⟨rfl, fun hx => hx⟩
  | cons tier rest ih =>
    intro nt ctr st' h
    unfold hybridPass at h
    cases hp : pool.points tier with
    | none =>
      rw [num_err pool tier hp] at h
      simp only [errBind] at h
      cases h
    | some lp =>
      rw [num_ok pool tier lp hp, available_ok] at h
      simp only [okBind] at h
      split_ifs at h with hcond
      · cases hq : pool.get_random_by_tier tier (stream ctr) with
        | error e =>
          rw [hq] at h
          simp only [errBind] at h
          cases h
        | ok p =>
          rw [hq] at h
          simp only [okBind] at h
          cases hc : nt.points p.tier with
          | none =>
            rw [contains_err nt p hc] at h
            simp only [errBind] at h
            cases h
          | some lc =>
            rw [contains_ok nt p lc hc] at h
            simp only [okBind] at h
            by_cases hm : p ∈ lc
            · rw [if_pos (by simpa using hm)] at h
              exact ih nt (ctr + 1) st' h
            · rw [if_neg (by simpa using hm)] at h
              cases ha : nt.add_point p with
              | error e =>
                rw [ha] at h
                simp only [errBind] at h
                cases h
              | ok nt2 =>
                rw [ha] at h
                simp only [okBind] at h
                obtain ⟨hmax, _, hcur, hle, _, _⟩ := add_point_ok_spec _ _ _ ha
                obtain ⟨h1, h2⟩ := ih nt2 (ctr + 1) st' h
                constructor
                · rw [h1, hmax]
                · intro _
                  have hx : currentValue nt2 ≤ nt2.maximum_tree_value := by omega
                  have hy := h2 hx
                  omega
      · exact ih nt ctr st' h

/-- Every point sits in the bucket matching its own tier (the data-model
invariant of §3 of the specification). -/
def TreeWF (mt : MasteryTree) : Prop :=
  ∀ (t : Int) (l : List MasteryPoint), mt.points t = some l → ∀ p ∈ l, p.tier = t

/-- No bucket of the tree holds the same point twice. -/
def BucketsNodup (mt : MasteryTree) : Prop :=
  ∀ (t : Int) (l : List MasteryPoint), mt.points t = some l → l.Nodup

/-- Every bucket of `nt` draws only from the matching bucket of `pool`. -/
def BucketsSub (nt pool : MasteryTree) : Prop :=
  ∀ (t : Int) (l lp : List MasteryPoint),
    nt.points t = some l → pool.points t = some lp → l ⊆ lp

theorem fuse_wf (A B C : MasteryTree) (hA : TreeWF A) (hB : TreeWF B)
    (h : A.fuse B = .ok C) : TreeWF C := by
  obtain ⟨_, rfl⟩ := fuse_ok_spec A B C h
  intro t l hl p hp
  rcases (points_eq_some_iff _ t l).mp hl with ⟨h1, h2⟩ | ⟨h1, h2⟩ | ⟨h1, h2⟩
    | ⟨h1, h2⟩ | ⟨h1, h2⟩ <;> subst h1 <;> subst h2 <;>
    rcases List.mem_append.mp hp with hx | hx
  · exact hA 1 A.t1 (points_one A) p hx
  · exact hB 1 B.t1 (points_one B) p hx
  · exact hA 2 A.t2 (points_two A) p hx
  · exact hB 2 B.t2 (points_two B) p hx
  · exact hA 3 A.t3 (points_three A) p hx
  · exact hB 3 B.t3 (points_three B) p hx
  · exact hA 4 A.t4 (points_four A) p hx
  · exact hB 4 B.t4 (points_four B) p hx
  · exact hA 5 A.t5 (points_five A) p hx
  · exact hB 5 B.t5 (points_five B) p hx

theorem hybridPass_inv (pool : MasteryTree) (stream : Nat → Nat) (hpool : TreeWF pool) :
    ∀ (l : List Int) (nt : MasteryTree) (ctr : Nat) (st' : MasteryTree × Nat),
      TreeWF nt → BucketsNodup nt → BucketsSub nt pool →
      hybridPass pool stream l nt ctr = .ok st' →
      TreeWF st'.1 ∧ BucketsNodup st'.1 ∧ BucketsSub st'.1 pool := by
  intro l
  induction l with
  | nil =>
    intro nt ctr st' hwf hnd hsb h
    cases h
    exact ⟨hwf, hnd, hsb⟩
  | cons tier rest ih =>
    intro nt ctr st' hwf hnd hsb h
    unfold hybridPass at h
    cases hp : pool.points tier with
    | none =>
      rw [num_err pool tier hp] at h
      simp only [errBind] at h
      cases h
    | some lp =>
      rw [num_ok pool tier lp hp, available_ok] at h
      simp only [okBind] at h
      split_ifs at h with hcond
      · cases hq : pool.get_random_by_tier tier (stream ctr) with
        | error e =>
          rw [hq] at h
          simp only [errBind] at h
          cases h
        | ok p =>
          rw [hq] at h
          simp only [okBind] at h
          obtain ⟨lp2, hp2, hplp⟩ := random_ok_mem pool tier (stream ctr) p hq
          rw [hp] at hp2
          cases hp2
          have htier : p.tier = tier := hpool tier lp hp p hplp
          have hptier : pool.points p.tier = some lp := by rw [htier]; exact hp
          cases hc : nt.points p.tier with
          | none =>
            rw [contains_err nt p hc] at h
            simp only [errBind] at h
            cases h
          | some lc =>
            rw [contains_ok nt p lc hc] at h
            simp only [okBind] at h
            by_cases hm : p ∈ lc
            · rw [if_pos (by simpa using hm)] at h
              exact ih nt (ctr + 1) st' hwf hnd hsb h
            · rw [if_neg (by simpa using hm)] at h
              cases ha : nt.add_point p with
              | error e =>
                rw [ha] at h
                simp only [errBind] at h
                cases h
              | ok nt2 =>
                rw [ha] at h
                simp only [okBind] at h
                obtain ⟨hmax, _, hcur, hle, hoth, l0, hl0, hl0'⟩ := add_point_ok_spec _ _ _ ha
                rw [hc] at hl0
                cases hl0
                have hwf2 : TreeWF nt2 := by
                  intro t lx hlx p2 hp2mem
                  by_cases ht : t = p.tier
                  · subst ht
                    rw [hl0'] at hlx
                    cases hlx
                    rcases List.mem_append.mp hp2mem with hx | hx
                    · exact hwf p.tier lc hc p2 hx
                    · rcases List.mem_singleton.mp hx with rfl
                      rfl
                  · rw [hoth t (fun hx => ht hx)] at hlx
                    exact hwf t lx hlx p2 hp2mem
                have hnd2 : BucketsNodup nt2 := by
                  intro t lx hlx
                  by_cases ht : t = p.tier
                  · subst ht
                    rw [hl0'] at hlx
                    cases hlx
                    rw [← List.concat_eq_append]
                    exact List.Nodup.concat hm (hnd p.tier lc hc)
                  · rw [hoth t (fun hx => ht hx)] at hlx
                    exact hnd t lx hlx
                have hsb2 : BucketsSub nt2 pool := by
                  intro t lx lpx hlx hlpx
                  by_cases ht : t = p.tier
                  · subst ht
                    rw [hl0'] at hlx
                    cases hlx
                    rw [hptier] at hlpx
                    cases hlpx
                    refine List.append_subset_of_subset_of_subset
                      (hsb p.tier lc lp hc hptier) ?_
                    intro x hx
                    rcases List.mem_singleton.mp hx with rfl
                    exact hplp
                  · rw [hoth t (fun hx => ht hx)] at hlx
                    exact hsb t lx lpx hlx hlpx
                exact ih nt2 (ctr + 1) st' hwf2 hnd2 hsb2 h
      · exact ih nt ctr st' hwf hnd hsb h

theorem hybridLoop_budget (pool : MasteryTree) (stream : Nat → Nat) :
    ∀ (fuel : Nat) (nt : MasteryTree) (ctr : Nat) (res : MasteryTree),
      hybridLoop pool stream fuel nt ctr = .ok (some res) →
      res.maximum_tree_value = nt.maximum_tree_value
        ∧ (currentValue nt ≤ nt.maximum_tree_value →
            currentValue res ≤ nt.maximum_tree_value) := by
  intro fuel
  induction fuel with
  | zero =>
    intro nt ctr res h
    simp [hybridLoop] at h
  | succ n ih =>
    intro nt ctr res h
    unfold hybridLoop at h
    rw [is_finished_ok] at h
    simp only [okBind] at h
    by_cases hfin : (viableB nt && completeB nt) = true
    · rw [if_pos hfin] at h
      injection h with h2
      injection h2 with h3
      subst h3
      exact ⟨rfl, fun hx => hx⟩
    · rw [if_neg hfin] at h
      cases hs : get_smallest_free_tier nt pool with
      | none =>
        rw [hs] at h
        injection h with h2
        injection h2 with h3
        subst h3
        exact ⟨rfl, fun hx => hx⟩
      | some s =>
        rw [hs] at h
        rw [get_current_ok] at h
        simp only [okBind] at h
        split_ifs at h with hgap
        · injection h with h2
          injection h2 with h3
          subst h3
          exact ⟨rfl, fun hx => hx⟩
        · cases hps : hybridPass pool stream [1, 2, 3, 4, 5] nt ctr with
          | error e =>
            rw [hps] at h
            simp only [errBind] at h
            cases h
          | ok st2 =>
            rw [hps] at h
            simp only [okBind] at h
            obtain ⟨b1, b2⟩ := hybridPass_budget pool stream _ nt ctr st2 hps
            obtain ⟨i1, i2⟩ := ih st2.1 st2.2 res h
            constructor
            · rw [i1, b1]
            · intro hx
              have hy := b2 hx
              have hz : currentValue st2.1 ≤ st2.1.maximum_tree_value := by omega
              have hw := i2 hz
              omega

theorem hybridLoop_inv (pool : MasteryTree) (stream : Nat → Nat) (hpool : TreeWF pool) :
    ∀ (fuel : Nat) (nt : MasteryTree) (ctr : Nat) (res : MasteryTree),
      TreeWF nt → BucketsNodup nt → BucketsSub nt pool →
      hybridLoop pool stream fuel nt ctr = .ok (some res) →
      TreeWF res ∧ BucketsNodup res ∧ BucketsSub res pool := by
  intro fuel
  induction fuel with
  | zero =>
    intro nt ctr res _ _ _ h
    simp [hybridLoop] at h
  | succ n ih =>
    intro nt ctr res hwf hnd hsb h
    unfold hybridLoop at h
    rw [is_finished_ok] at h
    simp only [okBind] at h
    by_cases hfin : (viableB nt && completeB nt) = true
    · rw [if_pos hfin] at h
      injection h with h2
      injection h2 with h3
      subst h3
      exact ⟨hwf, hnd, hsb⟩
    · rw [if_neg hfin] at h
      cases hs : get_smallest_free_tier nt pool with
      | none =>
        rw [hs] at h
        injection h with h2
        injection h2 with h3
        subst h3
        exact ⟨hwf, hnd, hsb⟩
      | some s =>
        rw [hs] at h
        rw [get_current_ok] at h
        simp only [okBind] at h
        split_ifs at h with hgap
        · injection h with h2
          injection h2 with h3
          subst h3
          exact ⟨hwf, hnd, hsb⟩
        · cases hps : hybridPass pool stream [1, 2, 3, 4, 5] nt ctr with
          | error e =>
            rw [hps] at h
            simp only [errBind] at h
            cases h
          | ok st2 =>
            rw [hps] at h
            simp only [okBind] at h
            obtain ⟨w2, n2, s2⟩ := hybridPass_inv pool stream hpool _ nt ctr st2 hwf hnd hsb hps
            exact ih st2.1 st2.2 res w2 n2 s2 h

theorem total_le_of_nodup_sub (nt pool : MasteryTree)
    (hnd : BucketsNodup nt) (hsb : BucketsSub nt pool) :
    nt.get_total_number_of_points ≤ pool.get_total_number_of_points := by
  have h1 : nt.t1.length ≤ pool.t1.length :=
    ((hnd 1 nt.t1 (points_one nt)).subperm (hsb 1 nt.t1 pool.t1 (points_one nt)
      (points_one pool))).length_le
  have h2 : nt.t2.length ≤ pool.t2.length :=
    ((hnd 2 nt.t2 (points_two nt)).subperm (hsb 2 nt.t2 pool.t2 (points_two nt)
      (points_two pool))).length_le
  have h3 : nt.t3.length ≤ pool.t3.length :=
    ((hnd 3 nt.t3 (points_three nt)).subperm (hsb 3 nt.t3 pool.t3 (points_three nt)
      (points_three pool))).length_le
  have h4 : nt.t4.length ≤ pool.t4.length :=
    ((hnd 4 nt.t4 (points_four nt)).subperm (hsb 4 nt.t4 pool.t4 (points_four nt)
      (points_four pool))).length_le
  have h5 : nt.t5.length ≤ pool.t5.length :=
    ((hnd 5 nt.t5 (points_five nt)).subperm (hsb 5 nt.t5 pool.t5 (points_five nt)
      (points_five pool))).length_le
  unfold MasteryTree.get_total_number_of_points
  omega

/-! ### The fill loops preserve the maximum tree value -/

theorem heavyFillTier_max (names : Nat → String) (tier : Int) (htier : 1 ≤ tier) :
    ∀ (n : Nat) (mt : MasteryTree) (ctr : Nat) (st' : MasteryTree × Nat),
      (mt.maximum_tree_value - currentValue mt).toNat = n →
      heavyFillTier names tier htier mt ctr = .ok st' →
      st'.1.maximum_tree_value = mt.maximum_tree_value := by
  intro n
  induction n using Nat.strong_induction_on with
  | _ n ih =>
    intro mt ctr st' hn h
    unfold heavyFillTier at h
    split_ifs at h with hgt
    · split at h
      next mt2 hadd =>
        obtain ⟨hmax, _, hcur, _, _, _⟩ := add_point_ok_spec _ _ _ hadd
        have htp : (create_random_mp tier ("t" ++ toString tier) (names ctr)).tier = tier := rfl
        rw [htp] at hcur
        have hlt : (mt2.maximum_tree_value - currentValue mt2).toNat < n := by omega
        have := ih _ hlt mt2 (ctr + 1) st' rfl h
        omega
      next e hadd =>
        cases h
    · cases h
      rfl

theorem heavy_fill_tree_max (names : Nat → String) (st st' : MasteryTree × Nat)
    (h : heavy_fill_tree names st = .ok st') :
    st'.1.maximum_tree_value = st.1.maximum_tree_value := by
  unfold heavy_fill_tree at h
  cases h5 : heavyFillTier names 5 int_one_le_five st.1 st.2 with
  | error e =>
    rw [h5] at h
    cases h
  | ok s5 =>
    rw [h5] at h
    simp only [okBind] at h
    cases h4 : heavyFillTier names 4 int_one_le_four s5.1 s5.2 with
    | error e =>
      rw [h4] at h
      cases h
    | ok s4 =>
      rw [h4] at h
      simp only [okBind] at h
      cases h3 : heavyFillTier names 3 int_one_le_three s4.1 s4.2 with
      | error e =>
        rw [h3] at h
        cases h
      | ok s3 =>
        rw [h3] at h
        simp only [okBind] at h
        cases h2 : heavyFillTier names 2 int_one_le_two s3.1 s3.2 with
        | error e =>
          rw [h2] at h
          cases h
        | ok s2 =>
          rw [h2] at h
          simp only [okBind] at h
          cases h1 : heavyFillTier names 1 int_one_le_one s2.1 s2.2 with
          | error e =>
            rw [h1] at h
            cases h
          | ok s1 =>
            rw [h1] at h
            simp only [okBind, pureOk] at h
            injection h with hx
            subst hx
            have e5 := heavyFillTier_max names 5 int_one_le_five _ st.1 st.2 s5 rfl h5
            have e4 := heavyFillTier_max names 4 int_one_le_four _ s5.1 s5.2 s4 rfl h4
            have e3 := heavyFillTier_max names 3 int_one_le_three _ s4.1 s4.2 s3 rfl h3
            have e2 := heavyFillTier_max names 2 int_one_le_two _ s3.1 s3.2 s2 rfl h2
            have e1 := heavyFillTier_max names 1 int_one_le_one _ s2.1 s2.2 s1 rfl h1
            omega

theorem light_fill_tree_max (names : Nat → String) :
    ∀ (n : Nat) (st st' : MasteryTree × Nat),
      (st.1.maximum_tree_value - currentValue st.1).toNat = n →
      light_fill_tree names st = .ok st' →
      st'.1.maximum_tree_value = st.1.maximum_tree_value := by
  intro n
  induction n using Nat.strong_induction_on with
  | _ n ih =>
    intro st st' hn h
    unfold light_fill_tree at h
    split_ifs at h with hlt
    · split at h
      next mt2 hadd =>
        obtain ⟨hmax, _, hcur, _, _, _⟩ := add_point_ok_spec _ _ _ hadd
        have htp : (create_random_mp 1 "t1" (names st.2)).tier = 1 := rfl
        rw [htp] at hcur
        have hsz : ((mt2, st.2 + 1) : MasteryTree × Nat).1.maximum_tree_value
            - currentValue (mt2, st.2 + 1).1 = mt2.maximum_tree_value - currentValue mt2 := rfl
        have hdec : (mt2.maximum_tree_value - currentValue mt2).toNat < n := by omega
        have := ih _ hdec (mt2, st.2 + 1) st' (by rw [hsz]) h
        simp only at this
        omega
      next e hadd =>
        cases h
    · cases h
      rfl

theorem evenly_fill_tree_max (names : Nat → String) :
    ∀ (n : Nat) (st st' : MasteryTree × Nat),
      (st.1.maximum_tree_value - currentValue st.1).toNat = n →
      evenly_fill_tree names st = .ok st' →
      st'.1.maximum_tree_value = st.1.maximum_tree_value := by
  intro n
  induction n using Nat.strong_induction_on with
  | _ n ih =>
    intro st st' hn h
    unfold evenly_fill_tree at h
    split_ifs at h with hlt
    · split at h
      next st2 hpass =>
        obtain ⟨hmax, hmono⟩ := evenFillPass_mono names [5, 4, 3, 2, 1] st.1 st.2 st2
          (by intro t ht; fin_cases ht <;> decide) hpass
        have hprog := evenFillPass_progress names [5, 4, 3, 2, 1] st.1 st.2 st2
          (by intro t ht; fin_cases ht <;> decide) (by decide) hlt hpass
        have hdec : (st2.1.maximum_tree_value - currentValue st2.1).toNat < n := by omega
        have := ih _ hdec st2 st' rfl h
        omega
      next e hpass =>
        cases h
    · cases h
      rfl

/-! ### Claim theorems -/

/-- C4: `add_point` raises an error if and only if
`currentValue + p.tier > maximumTreeValue`; on success the point is
appended at the end of the bucket for `p.tier` with no other observable
change (species, budget and all other buckets untouched), and the new
current value never exceeds `maximumTreeValue`.  In this pure embedding a
raising call returns no tree at all, so failure leaves the tree unchanged
by construction. -/
theorem C4_add_point_spec (mt : MasteryTree) (p : MasteryPoint)
    (h1 : 1 ≤ p.tier) (h5 : p.tier ≤ 5) :
    ((∃ e, mt.add_point p = .error e) ↔ mt.maximum_tree_value < currentValue mt + p.tier)
    ∧ (∀ mt', mt.add_point p = .ok mt' →
        (∃ l, mt.points p.tier = some l ∧ mt'.points p.tier = some (l ++ [p]))
        ∧ (∀ u, u ≠ p.tier → mt'.points u = mt.points u)
        ∧ mt'.species = mt.species
        ∧ mt'.maximum_tree_value = mt.maximum_tree_value
        ∧ currentValue mt' = currentValue mt + p.tier
        ∧ currentValue mt' ≤ mt.maximum_tree_value) := by
  constructor
  · constructor
    · rintro ⟨e, he⟩
      by_contra hc
      push_neg at hc
      have hex : ∃ l, mt.points p.tier = some l := by
        unfold MasteryTree.points
        split_ifs <;> first | exact ⟨_, rfl⟩ | omega
      obtain ⟨l, hl⟩ := hex
      rw [add_point_ok_of mt p l hc hl] at he
      cases he
    · intro hover
      exact ⟨_, add_point_error_of_over mt p (by omega)⟩
  · intro mt' hok
    obtain ⟨hmax, hsp, hcur, hle, hoth, l, hl, hl'⟩ := add_point_ok_spec _ _ _ hok
    exact ⟨⟨l, hl, hl'⟩, hoth, hsp, hmax, hcur, by omega⟩

def pw4 : MasteryPoint := ⟨"pw4", 1, none, none⟩

def w4tree : MasteryTree := MasteryTree.mkDefault "w4"

def w4res : MasteryTree := ⟨"w4", 47, [pw4], [], [], [], []⟩

/-- Witness for C4 at a concrete input. -/
theorem C4_add_point_witness :
    w4tree.add_point pw4 = .ok w4res
    ∧ currentValue w4res = currentValue w4tree + pw4.tier
    ∧ currentValue w4res ≤ w4tree.maximum_tree_value := by
  have hadd : w4tree.add_point pw4 = .ok w4res := rfl
  obtain ⟨_, _, _, _, hcur, hle⟩ :=
    (C4_add_point_spec w4tree pw4 (by decide) (by decide)).2 w4res hadd
  exact ⟨hadd, hcur, hle⟩

/-- C5: `is_viable` returns `True` exactly when the four cumulative unlock
gates hold (cumulative value `≥ 1` at tier 1, `≥ 3` at tier 2, `≥ 6` at
tier 3, `≥ 10` at tier 4, where `get_cumulative_tier_value` computes the
`cumulativeValue` closed form on valid tiers), and a tree with zero tier-1
points is never viable. -/
theorem C5_is_viable_iff (mt : MasteryTree) :
    (mt.is_viable = .ok true ↔
      (1 ≤ cumulativeValue mt 1 ∧ 3 ≤ cumulativeValue mt 2
        ∧ 6 ≤ cumulativeValue mt 3 ∧ 10 ≤ cumulativeValue mt 4))
    ∧ (∀ t, 1 ≤ t → t ≤ 5 → mt.get_cumulative_tier_value t = .ok (cumulativeValue mt t))
    ∧ (mt.get_number_of_points_by_tier 1 = .ok 0 → mt.is_viable = .ok false) := by
  refine ⟨?_, ?_, ?_⟩
  · rw [is_viable_ok]
    simp [viableB, Bool.and_eq_true, decide_eq_true_eq, and_assoc]
  · intro t h1 h5
    interval_cases t
    exacts [cum_ok_one mt, cum_ok_two mt, cum_ok_three mt, cum_ok_four mt, cum_ok_five mt]
  · intro h
    rw [num_ok mt 1 mt.t1 (points_one mt)] at h
    injection h with h2
    rw [is_viable_ok]
    have hc1 : cumulativeValue mt 1 = (mt.t1.length : Int) * 1 := by
      simp [cumulativeValue]
    congr 1
    simp [viableB, hc1, h2]

/-- Witness for C5: the empty default tree has no tier-1 point and is not
viable. -/
theorem C5_is_viable_witness : (MasteryTree.mkDefault "w5").is_viable = .ok false :=
  (C5_is_viable_iff (MasteryTree.mkDefault "w5")).2.2 rfl

/-- C7: `fuse` raises exactly when the two budgets differ (for example
budgets 47 and 50, see the witness), otherwise it returns a new tree whose
buckets are the concatenations of the inputs' buckets (the inputs
themselves are values and are untouched); `create_hybrid_tree` propagates
the fuse error unchanged. -/
theorem C7_fuse_budget_error (A B : MasteryTree) :
    ((∃ e, A.fuse B = .error e) ↔ A.maximum_tree_value ≠ B.maximum_tree_value)
    ∧ (∀ C, A.fuse B = .ok C →
        C.species = "fuse " ++ A.species ++ " & " ++ B.species
        ∧ C.maximum_tree_value = A.maximum_tree_value
        ∧ C.t1 = A.t1 ++ B.t1 ∧ C.t2 = A.t2 ++ B.t2 ∧ C.t3 = A.t3 ++ B.t3
        ∧ C.t4 = A.t4 ++ B.t4 ∧ C.t5 = A.t5 ++ B.t5)
    ∧ (∀ e stream fuel, A.fuse B = .error e →
        create_hybrid_tree A B stream fuel = .error e) := by
  refine ⟨⟨?_, ?_⟩, ?_, ?_⟩
  · rintro ⟨e, he⟩ heq
    rw [fuse_ok_of_eq A B heq] at he
    cases he
  · intro hne
    exact ⟨_, fuse_error_of_ne A B hne⟩
  · intro C h
    obtain ⟨hb, rfl⟩ := fuse_ok_spec A B C h
    exact ⟨rfl, rfl, rfl, rfl, rfl, rfl, rfl⟩
  · intro e stream fuel he
    unfold create_hybrid_tree
    rw [he]
    simp only [errBind]

/-- Witness for C7: budgets 47 and 50 make `fuse` raise, and
`create_hybrid_tree` propagates the error. -/
theorem C7_fuse_budget_error_witness :
    (∃ e, (MasteryTree.mkEmpty "A47" 47).fuse (MasteryTree.mkEmpty "B50" 50) = .error e)
    ∧ (∃ e2, create_hybrid_tree (MasteryTree.mkEmpty "A47" 47)
        (MasteryTree.mkEmpty "B50" 50) (fun _ => 0) 5 = .error e2) := by
  have h := C7_fuse_budget_error (MasteryTree.mkEmpty "A47" 47) (MasteryTree.mkEmpty "B50" 50)
  have hne : (MasteryTree.mkEmpty "A47" 47).maximum_tree_value
      ≠ (MasteryTree.mkEmpty "B50" 50).maximum_tree_value := by decide
  refine ⟨h.1.mpr hne, ?_⟩
  exact ⟨_, h.2.2 _ (fun _ => 0) 5 (fuse_error_of_ne _ _ hne)⟩

/-- C8: each bucket of `fuse(A, B)` is A's bucket followed by B's bucket,
and fusion is commutative in per-tier point membership (though not in the
resulting name). -/
theorem C8_fuse_commutative_membership (A B C C2 : MasteryTree)
    (hAB : A.fuse B = .ok C) (hBA : B.fuse A = .ok C2) :
    (C.t1 = A.t1 ++ B.t1 ∧ C.t2 = A.t2 ++ B.t2 ∧ C.t3 = A.t3 ++ B.t3
      ∧ C.t4 = A.t4 ++ B.t4 ∧ C.t5 = A.t5 ++ B.t5)
    ∧ (∀ p : MasteryPoint,
        (p ∈ C.t1 ↔ p ∈ C2.t1) ∧ (p ∈ C.t2 ↔ p ∈ C2.t2) ∧ (p ∈ C.t3 ↔ p ∈ C2.t3)
          ∧ (p ∈ C.t4 ↔ p ∈ C2.t4) ∧ (p ∈ C.t5 ↔ p ∈ C2.t5)) := by
  obtain ⟨hb, rfl⟩ := fuse_ok_spec A B C hAB
  obtain ⟨hb2, rfl⟩ := fuse_ok_spec B A C2 hBA
  refine ⟨⟨rfl, rfl, rfl, rfl, rfl⟩, ?_⟩
  intro p
  simp only [List.mem_append]
  refine ⟨Or.comm, Or.comm, Or.comm, Or.comm, Or.comm⟩

def pw8a : MasteryPoint := ⟨"pw8a", 1, none, none⟩

def pw8b : MasteryPoint := ⟨"pw8b", 1, none, none⟩

def w8A : MasteryTree := ⟨"a8", 47, [pw8a], [], [], [], []⟩

def w8B : MasteryTree := ⟨"b8", 47, [pw8b], [], [], [], []⟩

/-- Witness for C8 on two concrete one-point trees. -/
theorem C8_fuse_commutative_witness :
    ∃ C C2, w8A.fuse w8B = .ok C ∧ w8B.fuse w8A = .ok C2
      ∧ C.t1 = [pw8a, pw8b] ∧ C2.t1 = [pw8b, pw8a] ∧ (pw8a ∈ C.t1 ↔ pw8a ∈ C2.t1) := by
  obtain ⟨⟨ht1, _⟩, hmem⟩ := C8_fuse_commutative_membership w8A w8B _ _ rfl rfl
  exact ⟨_, _, rfl, rfl, ht1, rfl, (hmem pw8a).1⟩

/-- C10: for tiers outside 1-5, `get_tier_value`,
`get_number_of_points_by_tier` and `get_random_by_tier` fail with the
key-lookup error (`KeyError`), while only `get_cumulative_tier_value`
raises the tier-validation error (`ValueError`); on tiers 1-5 the three
unchecked accessors never raise a tier error (`get_random_by_tier` can
only fail with `IndexError` on an empty bucket). -/
theorem C10_tier_validation (mt : MasteryTree) (t : Int) :
    ((t < 1 ∨ 5 < t) →
      mt.get_tier_value t = .error (.keyError t)
      ∧ mt.get_number_of_points_by_tier t = .error (.keyError t)
      ∧ (∀ r, mt.get_random_by_tier t r = .error (.keyError t))
      ∧ mt.get_cumulative_tier_value t
          = .error (.valueError ("Value " ++ toString t ++ " is not a tier.")))
    ∧ (1 ≤ t → t ≤ 5 →
      (∃ v, mt.get_tier_value t = .ok v)
      ∧ (∃ c, mt.get_number_of_points_by_tier t = .ok c)
      ∧ (∀ r, (∃ p, mt.get_random_by_tier t r = .ok p)
          ∨ mt.get_random_by_tier t r = .error .indexError)
      ∧ mt.get_cumulative_tier_value t = .ok (cumulativeValue mt t)) := by
  constructor
  · intro hinv
    have hp := points_eq_none_of_invalid mt t hinv
    refine ⟨?_, num_err mt t hp, fun r => random_err_key mt t r hp, ?_⟩
    · unfold MasteryTree.get_tier_value MasteryTree.dictGet
      rw [hp]
      rfl
    · unfold MasteryTree.get_cumulative_tier_value
      rw [if_pos (by omega)]
  · intro h1 h5
    have hex : ∃ l, mt.points t = some l := by
      unfold MasteryTree.points
      split_ifs <;> first | exact ⟨_, rfl⟩ | omega
    obtain ⟨l, hl⟩ := hex
    refine ⟨⟨(l.length : Int) * t, ?_⟩, ⟨_, num_ok mt t l hl⟩,
      fun r => random_ok_or_idx mt t r l hl, ?_⟩
    · unfold MasteryTree.get_tier_value MasteryTree.dictGet
      rw [hl]
      rfl
    · interval_cases t
      exacts [cum_ok_one mt, cum_ok_two mt, cum_ok_three mt, cum_ok_four mt, cum_ok_five mt]

/-- Witness for C10 at the concrete tiers 6 (invalid) and 3 (valid). -/
theorem C10_tier_validation_witness :
    (MasteryTree.mkDefault "w10").get_tier_value 6 = .error (.keyError 6)
    ∧ (∃ s, (MasteryTree.mkDefault "w10").get_cumulative_tier_value 6
        = .error (.valueError s))
    ∧ (∃ v, (MasteryTree.mkDefault "w10").get_tier_value 3 = .ok v) := by
  obtain ⟨hinv, _⟩ := C10_tier_validation (MasteryTree.mkDefault "w10") 6
  obtain ⟨_, hval⟩ := C10_tier_validation (MasteryTree.mkDefault "w10") 3
  obtain ⟨h1, _, _, h4⟩ := hinv (by decide)
  obtain ⟨hv, _, _, _⟩ := hval (by decide) (by decide)
  exact ⟨h1, ⟨_, h4⟩, hv⟩

def e50A : MasteryTree := MasteryTree.mkEmpty "A" 50

def e50B : MasteryTree := MasteryTree.mkEmpty "B" 50

/-- Counterexample to C1 as stated: hybridizing two (empty) trees that
share the budget 50 yields a result tree whose `maximum_tree_value` is the
constructor default 47, not the pool's 50 — the Python code builds the
result with `MasteryTree(name)` and never passes the pool's budget. -/
theorem C1_counterexample :
    (∃ R, create_hybrid_tree e50A e50B (fun _ => 0) 1 = .ok (some R)
      ∧ R.maximum_tree_value = 47)
    ∧ (∃ P, e50A.fuse e50B = .ok P ∧ P.maximum_tree_value = 50)
    ∧ (47 : Int) ≠ 50 :=
  ⟨⟨_, rfl, rfl⟩, ⟨_, rfl, rfl⟩, by decide⟩

/-- C1 (amended): the result of `create_hybrid_tree` always carries the
default budget 47 and a current value of at most 47; consequently, when
the shared budget of the two sources is itself 47 (the only budget the
repository's generators produce), the result's budget equals the pool's
and its current value never exceeds `fuse(A,B).maximumTreeValue`. -/
theorem C1_default_budget_amended (A B : MasteryTree) (stream : Nat → Nat) (fuel : Nat)
    (nt : MasteryTree) (h : create_hybrid_tree A B stream fuel = .ok (some nt)) :
    nt.maximum_tree_value = 47 ∧ currentValue nt ≤ 47
    ∧ (∀ pool, A.fuse B = .ok pool → pool.maximum_tree_value = 47 →
        nt.maximum_tree_value = pool.maximum_tree_value
        ∧ currentValue nt ≤ pool.maximum_tree_value) := by
  unfold create_hybrid_tree at h
  cases hf : A.fuse B with
  | error e =>
    rw [hf] at h
    simp only [errBind] at h
    cases h
  | ok pool =>
    rw [hf] at h
    simp only [okBind] at h
    obtain ⟨hm, hc⟩ := hybridLoop_budget pool stream fuel _ 0 nt h
    have hm0 : (MasteryTree.mkDefault
        (A.species ++ " & " ++ B.species ++ " hybrid")).maximum_tree_value = 47 := rfl
    have hc0 : currentValue (MasteryTree.mkDefault
        (A.species ++ " & " ++ B.species ++ " hybrid")) = 0 := rfl
    have hcur : currentValue nt ≤ 47 := by
      have := hc (by rw [hc0, hm0]; decide)
      omega
    refine ⟨by omega, hcur, ?_⟩
    intro pool2 hp2 h47
    cases hp2
    constructor
    · omega
    · omega

/-- Witness for C1 (amended) at two concrete empty budget-47 trees. -/
theorem C1_default_budget_witness :
    ∃ nt, create_hybrid_tree (MasteryTree.mkEmpty "wA" 47) (MasteryTree.mkEmpty "wB" 47)
        (fun _ => 0) 1 = .ok (some nt)
      ∧ nt.maximum_tree_value = 47 ∧ currentValue nt ≤ 47 := by
  have h := C1_default_budget_amended (MasteryTree.mkEmpty "wA" 47)
    (MasteryTree.mkEmpty "wB" 47) (fun _ => 0) 1
    (MasteryTree.mkDefault ("wA" ++ " & " ++ "wB" ++ " hybrid")) rfl
  exact ⟨_, rfl, h.1, h.2.1⟩

def pa3 : MasteryPoint := ⟨"a3", 1, none, none⟩

def pb3 : MasteryPoint := ⟨"b3", 1, none, none⟩

def exA3 : MasteryTree := ⟨"A3", 47, [pa3], [], [], [], []⟩

def exB3 : MasteryTree := ⟨"B3", 47, [pb3], [], [], [], []⟩

def pool3 : MasteryTree :=
  ⟨"fuse " ++ "A3" ++ " & " ++ "B3", 47, [pa3, pb3], [], [], [], []⟩

def nt3 : MasteryTree :=
  ⟨"A3" ++ " & " ++ "B3" ++ " hybrid", 47, [pa3], [], [], [], []⟩

theorem loop3_stuck : ∀ (f ctr : Nat),
    hybridLoop pool3 (fun _ => 0) f nt3 ctr = .ok none := by
  intro f
  induction f with
  | zero =>
    intro ctr
    rfl
  | succ n ih =>
    intro ctr
    show hybridLoop pool3 (fun _ => 0) n nt3 (ctr + 1) = .ok none
    exact ih (ctr + 1)

/-- Counterexample to C3 as stated: with the draw-index stream that always
returns 0, `create_hybrid_tree` on the one-point trees `exA3`, `exB3`
(equal budgets 47) re-draws the already-inserted point forever, so no
iteration bound makes the loop return — termination does not hold
"regardless of the random draws". -/
theorem C3_counterexample :
    ¬ ∃ (fuel : Nat) (nt : MasteryTree),
        create_hybrid_tree exA3 exB3 (fun _ => 0) fuel = .ok (some nt) := by
  rintro ⟨fuel, nt, h⟩
  have hall : create_hybrid_tree exA3 exB3 (fun _ => 0) fuel = .ok none := by
    cases fuel with
    | zero => rfl
    | succ n => exact loop3_stuck n 1
  rw [hall] at h
  simp at h

/-- C3 (amended): termination for every random draw sequence fails (see
the counterexample), but the empty/empty special case does hold: the loop
exits on its first iteration because `get_smallest_free_tier` is `None`,
returning an empty tree that is not finished. -/
theorem C3_empty_case_amended (sa sb : String) (m : Int) (stream : Nat → Nat) (fuel : Nat)
    (hf : 1 ≤ fuel) :
    create_hybrid_tree (MasteryTree.mkEmpty sa m) (MasteryTree.mkEmpty sb m) stream fuel
      = .ok (some (MasteryTree.mkDefault (sa ++ " & " ++ sb ++ " hybrid")))
    ∧ (MasteryTree.mkDefault (sa ++ " & " ++ sb ++ " hybrid")).is_finished = .ok false := by
  obtain ⟨k, rfl⟩ : ∃ k, fuel = k + 1 := ⟨fuel - 1, by omega⟩
  constructor
  · unfold create_hybrid_tree
    rw [fuse_ok_of_eq (MasteryTree.mkEmpty sa m) (MasteryTree.mkEmpty sb m) rfl]
    simp only [okBind]
    rfl
  · rfl

/-- Witness for C3 (amended) at concrete empty trees. -/
theorem C3_empty_case_witness :
    create_hybrid_tree (MasteryTree.mkEmpty "e1" 47) (MasteryTree.mkEmpty "e2" 47)
        (fun _ => 0) 3 = .ok (some (MasteryTree.mkDefault ("e1" ++ " & " ++ "e2" ++ " hybrid")))
    ∧ (MasteryTree.mkDefault ("e1" ++ " & " ++ "e2" ++ " hybrid")).is_finished = .ok false :=
  C3_empty_case_amended "e1" "e2" 47 (fun _ => 0) 3 (by omega)

theorem mkEmpty_inv (s : String) (m : Int) (pool : MasteryTree) :
    TreeWF (MasteryTree.mkEmpty s m) ∧ BucketsNodup (MasteryTree.mkEmpty s m)
      ∧ BucketsSub (MasteryTree.mkEmpty s m) pool := by
  refine ⟨?_, ?_, ?_⟩
  · intro t l hl p hp
    rcases (points_eq_some_iff _ t l).mp hl with ⟨_, h2⟩ | ⟨_, h2⟩ | ⟨_, h2⟩
      | ⟨_, h2⟩ | ⟨_, h2⟩ <;> subst h2 <;> simp [MasteryTree.mkEmpty] at hp
  · intro t l hl
    rcases (points_eq_some_iff _ t l).mp hl with ⟨_, h2⟩ | ⟨_, h2⟩ | ⟨_, h2⟩
      | ⟨_, h2⟩ | ⟨_, h2⟩ <;> subst h2 <;> simp [MasteryTree.mkEmpty]
  · intro t l lp hl hlp
    rcases (points_eq_some_iff _ t l).mp hl with ⟨_, h2⟩ | ⟨_, h2⟩ | ⟨_, h2⟩
      | ⟨_, h2⟩ | ⟨_, h2⟩ <;> subst h2 <;> intro x hx <;> simp [MasteryTree.mkEmpty] at hx

theorem mkDefault_inv (s : String) (pool : MasteryTree) :
    TreeWF (MasteryTree.mkDefault s) ∧ BucketsNodup (MasteryTree.mkDefault s)
      ∧ BucketsSub (MasteryTree.mkDefault s) pool :=
  mkEmpty_inv s 47 pool

/-- C6: for well-formed sources with equal budgets, the hybrid result never
holds the same point twice in any bucket, every result bucket draws only
from the corresponding pool bucket, and the result's total point count is
at most the pool's (which covers `hybridize(A, A)`, where the pool holds
every point of A twice). -/
theorem C6_no_duplicate_points (A B pool : MasteryTree) (stream : Nat → Nat) (fuel : Nat)
    (nt : MasteryTree) (hA : TreeWF A) (hB : TreeWF B)
    (hfuse : A.fuse B = .ok pool)
    (h : create_hybrid_tree A B stream fuel = .ok (some nt)) :
    (∀ t l, nt.points t = some l → l.Nodup)
    ∧ (∀ t l lp, nt.points t = some l → pool.points t = some lp → l ⊆ lp)
    ∧ nt.get_total_number_of_points ≤ pool.get_total_number_of_points := by
  have hpoolWF : TreeWF pool := fuse_wf A B pool hA hB hfuse
  unfold create_hybrid_tree at h
  rw [hfuse] at h
  simp only [okBind] at h
  obtain ⟨w0, n0, s0⟩ :=
    mkDefault_inv (A.species ++ " & " ++ B.species ++ " hybrid") pool
  obtain ⟨wr, nr, sr⟩ := hybridLoop_inv pool stream hpoolWF fuel _ 0 nt w0 n0 s0 h
  exact ⟨nr, sr, total_le_of_nodup_sub nt pool nr sr⟩

/-- Witness for C6: hybridizing two concrete empty trees. -/
theorem C6_no_duplicate_points_witness :
    ∃ pool nt,
      (MasteryTree.mkEmpty "c6a" 47).fuse (MasteryTree.mkEmpty "c6b" 47) = .ok pool
      ∧ create_hybrid_tree (MasteryTree.mkEmpty "c6a" 47) (MasteryTree.mkEmpty "c6b" 47)
          (fun _ => 0) 1 = .ok (some nt)
      ∧ nt.get_total_number_of_points ≤ pool.get_total_number_of_points := by
  obtain ⟨_, _, htot⟩ := C6_no_duplicate_points (MasteryTree.mkEmpty "c6a" 47)
    (MasteryTree.mkEmpty "c6b" 47) _ (fun _ => 0) 1 _
    (mkEmpty_inv "c6a" 47 (MasteryTree.mkEmpty "c6a" 47)).1
    (mkEmpty_inv "c6b" 47 (MasteryTree.mkEmpty "c6b" 47)).1
    rfl rfl
  exact ⟨_, _, rfl, rfl, htot⟩

/-! ### Step and stop equations for the fill loops, and concrete runs -/

theorem heavyFillTier_stop (names : Nat → String) (tier : Int) (ht : 1 ≤ tier)
    (mt : MasteryTree) (ctr : Nat)
    (hgt : ¬ tier < mt.maximum_tree_value - currentValue mt) :
    heavyFillTier names tier ht mt ctr = .ok (mt, ctr) := by
  unfold heavyFillTier
  rw [dif_neg hgt]

theorem heavyFillTier_step (names : Nat → String) (tier : Int) (ht : 1 ≤ tier)
    (mt mt2 : MasteryTree) (ctr : Nat)
    (hgt : tier < mt.maximum_tree_value - currentValue mt)
    (hadd : mt.add_point (create_random_mp tier ("t" ++ toString tier) (names ctr)) = .ok mt2) :
    heavyFillTier names tier ht mt ctr = heavyFillTier names tier ht mt2 (ctr + 1) := by
  conv_lhs => unfold heavyFillTier
  rw [dif_pos hgt]
  split
  next mt3 hadd2 =>
    rw [hadd] at hadd2
    cases hadd2
    rfl
  next e hadd2 =>
    rw [hadd] at hadd2
    cases hadd2

theorem light_fill_stop (names : Nat → String) (st : MasteryTree × Nat)
    (hge : ¬ currentValue st.1 < st.1.maximum_tree_value) :
    light_fill_tree names st = .ok st := by
  unfold light_fill_tree
  rw [dif_neg hge]

theorem light_fill_step (names : Nat → String) (st : MasteryTree × Nat) (mt2 : MasteryTree)
    (hlt : currentValue st.1 < st.1.maximum_tree_value)
    (hadd : st.1.add_point (create_random_mp 1 "t1" (names st.2)) = .ok mt2) :
    light_fill_tree names st = light_fill_tree names (mt2, st.2 + 1) := by
  conv_lhs => unfold light_fill_tree
  rw [dif_pos hlt]
  split
  next mt3 hadd2 =>
    rw [hadd] at hadd2
    cases hadd2
    rfl
  next e hadd2 =>
    rw [hadd] at hadd2
    cases hadd2

theorem evenly_stop (names : Nat → String) (st : MasteryTree × Nat)
    (hge : ¬ currentValue st.1 < st.1.maximum_tree_value) :
    evenly_fill_tree names st = .ok st := by
  unfold evenly_fill_tree
  rw [dif_neg hge]

theorem evenly_step (names : Nat → String) (st st2 : MasteryTree × Nat)
    (hlt : currentValue st.1 < st.1.maximum_tree_value)
    (hp : evenFillPass names [5, 4, 3, 2, 1] st.1 st.2 = .ok st2) :
    evenly_fill_tree names st = evenly_fill_tree names st2 := by
  conv_lhs => unfold evenly_fill_tree
  rw [dif_pos hlt]
  split
  next st3 hp2 =>
    rw [hp] at hp2
    cases hp2
    rfl
  next e hp2 =>
    rw [hp] at hp2
    cases hp2

/-- The constant random-name stream used for the concrete generator runs. -/
def namesX : Nat → String := fun _ => "x"

/-- The MINLT skeleton as actually produced:
`generate_heavy_viable "MINLT" 47 namesX 0`. -/
def minlt0 : MasteryTree × Nat := generate_heavy_viable "MINLT" 47 namesX 0

/-- A skeleton point as named by `create_list_of_random_mp` under `namesX`. -/
def pG (nm : String) (t : Int) (nb : Nat) : MasteryPoint :=
  ⟨nm ++ "_t" ++ toString t ++ "_" ++ toString nb ++ "_" ++ "x", t, none, none⟩

/-- A fill point as named by the fill loops under `namesX`. -/
def pT (t : Int) : MasteryPoint := ⟨"t" ++ toString t ++ "x", t, none, none⟩

def MSkel : MasteryTree :=
  ⟨"MINLT", 47, [pG "MINLT" 1 0], [pG "MINLT" 2 0, pG "MINLT" 2 1],
    [pG "MINLT" 3 0, pG "MINLT" 3 1, pG "MINLT" 3 2],
    [pG "MINLT" 4 0, pG "MINLT" 4 1, pG "MINLT" 4 2, pG "MINLT" 4 3],
    [pG "MINLT" 5 0]⟩

def M1 : MasteryTree := { MSkel with t5 := [pG "MINLT" 5 0, pT 5] }

def M2 : MasteryTree := { MSkel with t5 := [pG "MINLT" 5 0, pT 5, pT 5] }

def M3 : MasteryTree := { M2 with t1 := [pG "MINLT" 1 0, pT 1] }

theorem minlt0_eq : minlt0 = (MSkel, 11) := by decide

theorem minlt_eval5 : heavyFillTier namesX 5 int_one_le_five MSkel 11 = .ok (M2, 13) := by
  rw [heavyFillTier_step namesX 5 int_one_le_five MSkel M1 11 (by decide) (by decide)]
  rw [heavyFillTier_step namesX 5 int_one_le_five M1 M2 12 (by decide) (by decide)]
  exact heavyFillTier_stop namesX 5 int_one_le_five M2 13 (by decide)

theorem minlt_eval1 : heavyFillTier namesX 1 int_one_le_one M2 13 = .ok (M3, 14) := by
  rw [heavyFillTier_step namesX 1 int_one_le_one M2 M3 13 (by decide) (by decide)]
  exact heavyFillTier_stop namesX 1 int_one_le_one M3 14 (by decide)

theorem minlt_eval : heavy_fill_tree namesX minlt0 = .ok (M3, 14) := by
  rw [minlt0_eq]
  unfold heavy_fill_tree
  rw [minlt_eval5]
  simp only [okBind]
  rw [heavyFillTier_stop namesX 4 int_one_le_four M2 13 (by decide)]
  simp only [okBind]
  rw [heavyFillTier_stop namesX 3 int_one_le_three M2 13 (by decide)]
  simp only [okBind]
  rw [heavyFillTier_stop namesX 2 int_one_le_two M2 13 (by decide)]
  simp only [okBind]
  rw [minlt_eval1]
  simp only [okBind, pureOk]

/-- C2 (code bug): `heavy_fill_tree` never reaches the budget.  Its loop
condition is the strict `maximum_tree_value - get_current_value() > tier`,
so on the MINLT skeleton (current value 35 of budget 47, hence strictly
below it) the run deposits two tier-5 and one tier-1 point and stops at
current value 46 with `is_complete()` false — contradicting the function's
own docstring ("Fill a tree with points until its tree_value matches") and
the claim that the MINLT generator always yields a complete tree.  This
theorem evaluates the code at that failing input. -/
theorem C2_heavy_fill_incomplete_eval :
    currentValue minlt0.1 = 35
    ∧ minlt0.1.maximum_tree_value = 47
    ∧ heavy_fill_tree namesX minlt0 = .ok (M3, 14)
    ∧ currentValue M3 = 46
    ∧ M3.maximum_tree_value = 47
    ∧ M3.is_complete = .ok false
    ∧ generate_min_low_tiers 47 namesX 0 = .ok (M3, 14) :=
  ⟨by decide, by decide, minlt_eval, by decide, by decide, by decide, minlt_eval⟩

def lightSkel (nm : String) : MasteryTree :=
  ⟨nm, 47, [pG nm 1 0, pG nm 1 1, pG nm 1 2, pG nm 1 3],
    [pG nm 2 0, pG nm 2 1, pG nm 2 2], [pG nm 3 0, pG nm 3 1], [pG nm 4 0], [pG nm 5 0]⟩

/-- The MAXLT light-fill run after `k` added tier-1 points. -/
def Bk (k : Nat) : MasteryTree :=
  ⟨"MAXLT", 47, (lightSkel "MAXLT").t1 ++ List.replicate k (pT 1),
    (lightSkel "MAXLT").t2, (lightSkel "MAXLT").t3, (lightSkel "MAXLT").t4,
    (lightSkel "MAXLT").t5⟩

theorem cur_Bk (k : Nat) : currentValue (Bk k) = 25 + k := by
  rw [currentValue_eq]
  simp [Bk, lightSkel]
  push_cast
  ring

theorem Bk_step (k : Nat) (hk : k < 22) :
    light_fill_tree namesX (Bk k, 11 + k) = light_fill_tree namesX (Bk (k + 1), 11 + k + 1) := by
  have hlt : currentValue (Bk k) < (Bk k).maximum_tree_value := by
    rw [cur_Bk]
    show (25 : Int) + k < 47
    omega
  have hpt : create_random_mp 1 "t1" (namesX (11 + k)) = pT 1 := by
    rw [show namesX (11 + k) = "x" from rfl]
    decide
  have hadd : (Bk k).add_point (create_random_mp 1 "t1" (namesX (11 + k)))
      = .ok (Bk (k + 1)) := by
    rw [hpt]
    have hb : currentValue (Bk k) + (pT 1).tier ≤ (Bk k).maximum_tree_value := by
      rw [cur_Bk]
      show (25 : Int) + k + 1 ≤ 47
      omega
    rw [add_point_ok_of (Bk k) (pT 1) ((Bk k).t1) hb (points_one (Bk k))]
    have htt : (pT 1).tier = (1 : Int) := rfl
    rw [htt, setBucket_one]
    congr 1
    unfold Bk
    simp [List.replicate_succ', List.append_assoc]
  exact light_fill_step namesX (Bk k, 11 + k) (Bk (k + 1)) hlt hadd

theorem Bk_all : ∀ (j : Nat), j ≤ 22 →
    light_fill_tree namesX (Bk (22 - j), 11 + (22 - j)) = .ok (Bk 22, 33) := by
  intro j
  induction j with
  | zero =>
    intro _
    have hstop : light_fill_tree namesX (Bk 22, 33) = .ok (Bk 22, 33) := by
      refine light_fill_stop namesX (Bk 22, 33) ?_
      rw [show ((Bk 22, 33) : MasteryTree × Nat).1 = Bk 22 from rfl, cur_Bk]
      show ¬ (25 : Int) + 22 < 47
      omega
    simpa using hstop
  | succ i ih =>
    intro hj
    have h1 := Bk_step (22 - (i + 1)) (by omega)
    have he1 : 22 - (i + 1) + 1 = 22 - i := by omega
    have he2 : 11 + (22 - (i + 1)) + 1 = 11 + (22 - i) := by omega
    rw [he1, he2] at h1
    rw [h1]
    exact ih (by omega)

/-- The MAXLT skeleton as actually produced. -/
theorem maxlt0_eq : generate_light_viable "MAXLT" 47 namesX 0 = (lightSkel "MAXLT", 11) := by
  decide

theorem Bk0_eq : lightSkel "MAXLT" = Bk 0 := by decide

theorem maxlt_eval : light_fill_tree namesX (lightSkel "MAXLT", 11) = .ok (Bk 22, 33) := by
  rw [Bk0_eq]
  have := Bk_all 22 (by omega)
  simpa using this

def E1 : MasteryTree :=
  ⟨"AVG", 47, [pG "AVG" 1 0, pG "AVG" 1 1, pG "AVG" 1 2, pG "AVG" 1 3, pT 1],
    [pG "AVG" 2 0, pG "AVG" 2 1, pG "AVG" 2 2, pT 2],
    [pG "AVG" 3 0, pG "AVG" 3 1, pT 3],
    [pG "AVG" 4 0, pT 4],
    [pG "AVG" 5 0, pT 5]⟩

def E2 : MasteryTree :=
  ⟨"AVG", 47, E1.t1, [pG "AVG" 2 0, pG "AVG" 2 1, pG "AVG" 2 2, pT 2, pT 2],
    E1.t3, E1.t4, [pG "AVG" 5 0, pT 5, pT 5]⟩

theorem avg0_eq : generate_light_viable "AVG" 47 namesX 0 = (lightSkel "AVG", 11) := by
  decide

theorem avg_pass1 : evenFillPass namesX [5, 4, 3, 2, 1] (lightSkel "AVG") 11 = .ok (E1, 16) := by
  decide

theorem avg_pass2 : evenFillPass namesX [5, 4, 3, 2, 1] E1 16 = .ok (E2, 18) := by
  decide

theorem avg_eval : evenly_fill_tree namesX (lightSkel "AVG", 11) = .ok (E2, 18) := by
  rw [evenly_step namesX (lightSkel "AVG", 11) (E1, 16) (by decide) avg_pass1]
  rw [evenly_step namesX (E1, 16) (E2, 18) (by decide) avg_pass2]
  exact evenly_stop namesX (E2, 18) (by decide)

/-- C9 (implicit): the `tree_value` parameter of the generators has no
effect whatsoever: the generated skeletons never pass it to the tree
constructor, so the generated tree is identical for any two parameter
values, and every tree produced carries the default budget 47 (the fill
loops preserve the budget). -/
theorem C9_tree_value_ignored (tv tv2 : Int) (names : Nat → String) (ctr : Nat)
    (nm : String) :
    generate_heavy_viable nm tv names ctr = generate_heavy_viable nm tv2 names ctr
    ∧ generate_light_viable nm tv names ctr = generate_light_viable nm tv2 names ctr
    ∧ generate_min_low_tiers tv names ctr = generate_min_low_tiers tv2 names ctr
    ∧ generate_max_low_tiers tv names ctr = generate_max_low_tiers tv2 names ctr
    ∧ generate_avg tv names ctr = generate_avg tv2 names ctr
    ∧ (generate_heavy_viable nm tv names ctr).1.maximum_tree_value = 47
    ∧ (generate_light_viable nm tv names ctr).1.maximum_tree_value = 47
    ∧ (∀ mt c, generate_min_low_tiers tv names ctr = .ok (mt, c) → mt.maximum_tree_value = 47)
    ∧ (∀ mt c, generate_max_low_tiers tv names ctr = .ok (mt, c) → mt.maximum_tree_value = 47)
    ∧ (∀ mt c, generate_avg tv names ctr = .ok (mt, c) → mt.maximum_tree_value = 47) := by
  refine ⟨rfl, rfl, rfl, rfl, rfl, rfl, rfl, ?_, ?_, ?_⟩
  · intro mt c h
    have hx := heavy_fill_tree_max names (generate_heavy_viable "MINLT" tv names ctr) (mt, c) h
    simpa using hx
  · intro mt c h
    have hx := light_fill_tree_max names _ (generate_light_viable "MAXLT" tv names ctr)
      (mt, c) rfl h
    simpa using hx
  · intro mt c h
    have hx := evenly_fill_tree_max names _ (generate_light_viable "AVG" tv names ctr)
      (mt, c) rfl h
    simpa using hx

/-- Witness for C9: concrete runs of the three strategy generators, with
the `tree_value` argument visibly irrelevant. -/
theorem C9_tree_value_ignored_witness :
    generate_min_low_tiers 0 namesX 0 = generate_min_low_tiers 47 namesX 0
    ∧ generate_min_low_tiers 47 namesX 0 = .ok (M3, 14) ∧ M3.maximum_tree_value = 47
    ∧ generate_max_low_tiers 47 namesX 0 = .ok (Bk 22, 33)
    ∧ (Bk 22).maximum_tree_value = 47
    ∧ generate_avg 47 namesX 0 = .ok (E2, 18) ∧ E2.maximum_tree_value = 47 := by
  obtain ⟨_, _, hmineq, hmaxeq, havgeq, _, _, hmin, hmax2, havg⟩ :=
    C9_tree_value_ignored 0 47 namesX 0 "Z"
  have hminev : generate_min_low_tiers 47 namesX 0 = .ok (M3, 14) := minlt_eval
  have hmaxev : generate_max_low_tiers 47 namesX 0 = .ok (Bk 22, 33) := by
    show light_fill_tree namesX (generate_light_viable "MAXLT" 47 namesX 0) = _
    rw [maxlt0_eq]
    exact maxlt_eval
  have havgev : generate_avg 47 namesX 0 = .ok (E2, 18) := by
    show evenly_fill_tree namesX (generate_light_viable "AVG" 47 namesX 0) = _
    rw [avg0_eq]
    exact avg_eval
  refine ⟨hmineq, hminev, ?_, hmaxev, ?_, havgev, ?_⟩
  · exact hmin M3 14 (by rw [hmineq]; exact hminev)
  · exact hmax2 (Bk 22) 33 (by rw [hmaxeq]; exact hmaxev)
  · exact havg E2 18 (by rw [havgeq]; exact havgev)
